import Mathlib

/-!
# pizzaSorting: the debounced edge counter of `IR/mainwindow.cpp`

A shallow embedding of the counter core of the `IR` program: the helper
functions `bucketPercentFromCount` and `debounceOk`, the six atomic fields of
`MainWindow` (`countA_`, `countB_`, `lastTickA_`, `lastTickB_`, `stepA_`,
`stepB_`), and the two operations that write them, `MainWindow::handleRising`
and `MainWindow::resetAll`.

Conventions.
* A C++ `int` is an `Int`; the only arithmetic on counts is `c + 1` under the
  guard `c < 40` and `c / 8` under `0 < c < 40`, neither of which can overflow.
* A `uint32_t` tick is a `Nat`, meant to be below `2^32`; the one place where
  32-bit wraparound matters, the subtraction in `debounceOk`, is written with
  an explicit `% 4294967296`. The theorems hold for every natural number, so in
  particular for every 32-bit tick; every concrete input uses ticks below `2^32`.
* `emit sensorStepChanged(i, step, c)` is modelled as an output: every call of
  `handleRising` returns the list of signals it emitted.
* The calls are sequential: the pigpio callbacks and the reset button are
  modelled as a list of calls applied one after the other.
* The four widget updates at the end of `resetAll` touch only `ui`, which is
  not part of the counter state embedded here.

The file also embeds the colour classifier `MainWindow::classifyHSV` of the
two disc-detector programs (`mainwindow.cpp` at the root and
`disc_detector/mainwindow.cpp`), as `Root.classifyHSV` and
`DiscDetector.classifyHSV`; a `cv::Vec3b` pixel is three `uchar` channels,
read into `int` variables.
-/

namespace PizzaSorting

/-! ## Helpers (`IR/mainwindow.cpp`, lines 6-16) -/

/-- The quantised percentage of a raw count; `c / 8` is C++ `int` division,
which truncates toward zero. -/
def bucketPercentFromCount (c : Int) : Int :=
  if c ≤ 0 then 0
  else if c ≥ 40 then 100
  else
    let bucket := Int.tdiv c 8
    let bucket := if bucket > 5 then 5 else bucket
    bucket * 20

/-- The debounce test: `static_cast<uint32_t>(currTick - prevTick) > us`, the
subtraction being that of `uint32_t`, i.e. modulo `2^32`. The C++ default
`us = 3000` is never used: `handleRising` passes `DB_US`. -/
def debounceOk (prevTick currTick us : Nat) : Bool :=
  decide ((currTick % 4294967296 + (4294967296 - prevTick % 4294967296)) % 4294967296 > us)

/-- The constant `DB_US` of `handleRising`. -/
def DB_US : Nat := 3000

/-! ## State (`IR/mainwindow.h`, lines 55-63) -/

/-- The atomic fields of `MainWindow`. -/
structure MainWindow where
  countA : Int
  countB : Int
  lastTickA : Nat
  lastTickB : Nat
  stepA : Int
  stepB : Int
  deriving DecidableEq, Repr

/-- The state after construction: every field has the initialiser `{0}`. -/
def MainWindow.initial : MainWindow :=
  { countA := 0, countB := 0, lastTickA := 0, lastTickB := 0, stepA := 0, stepB := 0 }

/-- One emission of the signal `sensorStepChanged(sensorIndex, percentStep, rawCount)`. -/
structure SensorStepChanged where
  sensorIndex : Int
  percentStep : Int
  rawCount : Int
  deriving DecidableEq, Repr

/-! ## Operations (`IR/mainwindow.cpp`, lines 93-122 and 140-147) -/

/-- The body of `MainWindow::handleRising`: the new state and the signals emitted. -/
def handleRising (sensorIndex : Int) (tick : Nat) (w : MainWindow) :
    MainWindow × List SensorStepChanged :=
  if sensorIndex = 0 then
    let last := w.lastTickA
    if !debounceOk last tick DB_US then (w, [])
    else
      let w := { w with lastTickA := tick }
      let c := w.countA
      if c ≥ 40 then (w, [])
      else
        let c := w.countA + 1
        let w := { w with countA := w.countA + 1 }
        let step := bucketPercentFromCount c
        let w := { w with stepA := step }
        (w, [{ sensorIndex := 0, percentStep := step, rawCount := c }])
  else
    let last := w.lastTickB
    if !debounceOk last tick DB_US then (w, [])
    else
      let w := { w with lastTickB := tick }
      let c := w.countB
      if c ≥ 40 then (w, [])
      else
        let c := w.countB + 1
        let w := { w with countB := w.countB + 1 }
        let step := bucketPercentFromCount c
        let w := { w with stepB := step }
        (w, [{ sensorIndex := 1, percentStep := step, rawCount := c }])

/-- The six stores of `MainWindow::resetAll`. -/
def resetAll (w : MainWindow) : MainWindow :=
  let w := { w with countA := 0 }
  let w := { w with countB := 0 }
  let w := { w with lastTickA := 0 }
  let w := { w with lastTickB := 0 }
  let w := { w with stepA := 0 }
  let w := { w with stepB := 0 }
  w

/-! ## Observations and call sequences -/

/-- The count of the channel that `handleRising` selects for `sensorIndex`
(`countA_` for 0, `countB_` otherwise). -/
def MainWindow.count (w : MainWindow) (sensorIndex : Int) : Int :=
  if sensorIndex = 0 then w.countA else w.countB

/-- The last tick of the channel selected for `sensorIndex`. -/
def MainWindow.lastTick (w : MainWindow) (sensorIndex : Int) : Nat :=
  if sensorIndex = 0 then w.lastTickA else w.lastTickB

/-- The published step of the channel selected for `sensorIndex`. -/
def MainWindow.step (w : MainWindow) (sensorIndex : Int) : Int :=
  if sensorIndex = 0 then w.stepA else w.stepB

/-- A call made on the window: a rising edge on a sensor, or a reset. -/
inductive Call where
  | rising (sensorIndex : Int) (tick : Nat)
  | reset
  deriving DecidableEq, Repr

/-- The state after one call. -/
def Call.apply (w : MainWindow) : Call → MainWindow
  | .rising sensorIndex tick => (handleRising sensorIndex tick w).1
  | .reset => resetAll w

/-- The state after a sequence of calls, applied from left to right. -/
def run (w : MainWindow) (calls : List Call) : MainWindow :=
  calls.foldl Call.apply w

/-- The spec's bucket function, written from its words: 0 for `count <= 0`,
100 for `count >= 40`, otherwise `min(count / 8, 5) * 20`. -/
def bucketSpec (count : Int) : Int :=
  if count ≤ 0 then 0
  else if count ≥ 40 then 100
  else min (count / 8) 5 * 20

/-! ## Histories of accepted edges -/

/-- An entry in the history of one channel: an accepted edge, with its tick,
or a reset. -/
inductive Mark where
  | accepted (tick : Nat)
  | reset
  deriving DecidableEq, Repr

/-- The history of the channel selected by `ch` along a sequence of calls
started in state `w`: every `resetAll` is recorded, and a `handleRising` call
is recorded, with its tick, exactly when it incremented the count of the
channel. -/
def history (ch : Int) (w : MainWindow) : List Call → List Mark
  | [] => []
  | .reset :: calls => Mark.reset :: history ch (resetAll w) calls
  | .rising i t :: calls =>
      if (handleRising i t w).1.count ch = w.count ch + 1 then
        Mark.accepted t :: history ch (handleRising i t w).1 calls
      else history ch (handleRising i t w).1 calls

/-- The ticks of the accepted edges of a history, resets dropped. -/
def acceptedTicks : List Mark → List Nat
  | [] => []
  | .accepted t :: ms => t :: acceptedTicks ms
  | .reset :: ms => acceptedTicks ms

/-- Two ticks are separated by more than the debounce window of 3000
microseconds, the difference being taken modulo `2^32`. -/
def separated (t1 t2 : Nat) : Prop :=
  ((t2 : Int) - (t1 : Int)) % 4294967296 > 3000

instance separated.decidable : DecidableRel separated :=
  fun t1 t2 => inferInstanceAs (Decidable (((t2 : Int) - (t1 : Int)) % 4294967296 > 3000))

/-- Two neighbouring entries of a history respect the debounce window: two
accepted edges are `separated`; a reset on either side imposes nothing. -/
def Mark.separated : Mark → Mark → Prop
  | .accepted t1, .accepted t2 => PizzaSorting.separated t1 t2
  | _, _ => True

instance Mark.separated.decidable : DecidableRel Mark.separated :=
  fun m1 m2 =>
    match m1, m2 with
    | .accepted t1, .accepted t2 => inferInstanceAs (Decidable (PizzaSorting.separated t1 t2))
    | .accepted _, .reset => isTrue trivial
    | .reset, _ => isTrue trivial

/-- The edges of the spec's first end-to-end scenario: channel A at ticks 0,
4000, 8000 and 12000. -/
def scenarioEdges : List Call :=
  [Call.rising 0 0, Call.rising 0 4000, Call.rising 0 8000, Call.rising 0 12000]

/-- Forty correctly spaced edges on channel A, at ticks 4000, 8000, ..., 160000. -/
def fortyEdges : List Call :=
  (List.range 40).map fun k => Call.rising 0 (4000 * (k + 1))

/-! ## The colour classifier (`mainwindow.cpp`, lines 35-42, and
`disc_detector/mainwindow.cpp`, lines 36-44) -/

/-- A pixel `cv::Vec3b`: three `uchar` channels, each meant to be at most 255;
in an HSV image they are hue, saturation and value. -/
structure Vec3b where
  c0 : Nat
  c1 : Nat
  c2 : Nat
  deriving DecidableEq, Repr

/-- The classifier of the root program: its first test is `v < 40 || s < 40`. -/
def Root.classifyHSV (hsv : Vec3b) : String :=
  let h : Int := hsv.c0
  let s : Int := hsv.c1
  let v : Int := hsv.c2
  if v < 40 ∨ s < 40 then "unknown"
  else if h < 10 ∨ h > 170 then "red"
  else if h > 90 ∧ h < 135 then "blue"
  else if h > 35 ∧ h < 85 then "green"
  else "unknown"

/-- The classifier of the `disc_detector` program: its first test is
`h < 40 || s < 40`; the variable `v` is read and not used. -/
def DiscDetector.classifyHSV (hsv : Vec3b) : String :=
  let h : Int := hsv.c0
  let s : Int := hsv.c1
  let _v : Int := hsv.c2
  if h < 40 ∨ s < 40 then "unknown"
  else if h < 10 ∨ h > 170 then "red"
  else if h > 90 ∧ h < 135 then "blue"
  else if h > 35 ∧ h < 85 then "green"
  else "unknown"

/-! ## Basic facts -/

theorem debounceOk_iff (prevTick currTick us : Nat) :
    debounceOk prevTick currTick us = true ↔
      ((currTick : Int) - (prevTick : Int)) % 4294967296 > (us : Int) := by
  unfold debounceOk
  rw [decide_eq_true_iff]
  omega

/-- The three outcomes of `handleRising` on channel A. -/
theorem handleRising_zero (t : Nat) (w : MainWindow) :
    handleRising 0 t w =
      if debounceOk w.lastTickA t DB_US = false then (w, [])
      else if 40 ≤ w.countA then ({ w with lastTickA := t }, [])
      else ({ w with lastTickA := t, countA := w.countA + 1,
                     stepA := bucketPercentFromCount (w.countA + 1) },
            [{ sensorIndex := 0, percentStep := bucketPercentFromCount (w.countA + 1),
               rawCount := w.countA + 1 }]) := by
  unfold handleRising
  cases h : debounceOk w.lastTickA t DB_US <;> simp [h]

/-- The three outcomes of `handleRising` on channel B, which is selected by
every index other than 0. -/
theorem handleRising_nonzero (i : Int) (hi : i ≠ 0) (t : Nat) (w : MainWindow) :
    handleRising i t w =
      if debounceOk w.lastTickB t DB_US = false then (w, [])
      else if 40 ≤ w.countB then ({ w with lastTickB := t }, [])
      else ({ w with lastTickB := t, countB := w.countB + 1,
                     stepB := bucketPercentFromCount (w.countB + 1) },
            [{ sensorIndex := 1, percentStep := bucketPercentFromCount (w.countB + 1),
               rawCount := w.countB + 1 }]) := by
  unfold handleRising
  cases h : debounceOk w.lastTickB t DB_US <;> simp [h, hi]

theorem debounceOk_eq_false_iff (prevTick currTick us : Nat) :
    debounceOk prevTick currTick us = false ↔
      ((currTick : Int) - (prevTick : Int)) % 4294967296 ≤ (us : Int) := by
  rw [← Bool.not_eq_true, debounceOk_iff]
  omega

/-! ## C4: the bucket function -/

/-- C4: `bucketPercentFromCount` equals the spec's bucket function
`bucketSpec` at every integer count; it is 0 up to 7, 20 on [8,15], 40 on
[16,23], 60 on [24,31], 80 on [32,39] and 100 from 40 on; and its value is
always one of 0, 20, 40, 60, 80, 100. -/
theorem bucketPercentFromCount_eq_bucketSpec (c : Int) :
    bucketPercentFromCount c = bucketSpec c ∧
    bucketPercentFromCount c =
      (if c ≤ 0 then 0 else if c ≤ 7 then 0 else if c ≤ 15 then 20
       else if c ≤ 23 then 40 else if c ≤ 31 then 60 else if c ≤ 39 then 80 else 100) ∧
    bucketPercentFromCount c ∈ ({0, 20, 40, 60, 80, 100} : Set Int) := by
  have htab : bucketPercentFromCount c =
      (if c ≤ 0 then 0 else if c ≤ 7 then 0 else if c ≤ 15 then 20
       else if c ≤ 23 then 40 else if c ≤ 31 then 60 else if c ≤ 39 then 80 else 100) := by
    unfold bucketPercentFromCount
    by_cases h0 : c ≤ 0
    · simp [h0]
    · by_cases h40 : c ≥ 40
      · have h7 : ¬ c ≤ 7 := by omega
        have h15 : ¬ c ≤ 15 := by omega
        have h23 : ¬ c ≤ 23 := by omega
        have h31 : ¬ c ≤ 31 := by omega
        have h39 : ¬ c ≤ 39 := by omega
        simp [h0, h40, h7, h15, h23, h31, h39]
      · have hc : 0 ≤ c := by omega
        have hdiv : Int.tdiv c 8 = c / 8 := Int.tdiv_eq_ediv hc (by decide)
        simp only [h0, h40, if_false, hdiv]
        split_ifs <;> omega
  refine ⟨?_, htab, ?_⟩
  · rw [htab]
    unfold bucketSpec
    split_ifs <;> first | rfl | omega
  · rw [htab]
    simp only [Set.mem_insert_iff, Set.mem_singleton_iff]
    split_ifs <;> simp

/-! ## C1, C2, C3: one call of `handleRising` -/

/-- C1: on channel A (index 0) or B (index 1), when the elapsed time
`(t - lastTick) mod 2^32` exceeds 3000 and the count is below 40,
`handleRising` stores `t` as the channel's last tick, increases its count by
exactly 1, sets its step to `bucketPercentFromCount` of the new count, emits
exactly one signal `(channel, new step, new count)`, and leaves the count,
last tick and step of the other channel unchanged. -/
theorem handleRising_accepts (w : MainWindow) (i : Int) (t : Nat) (hi : i = 0 ∨ i = 1)
    (hgap : ((t : Int) - (w.lastTick i : Int)) % 4294967296 > 3000)
    (hc : w.count i < 40) :
    (handleRising i t w).1.lastTick i = t ∧
    (handleRising i t w).1.count i = w.count i + 1 ∧
    (handleRising i t w).1.step i = bucketPercentFromCount (w.count i + 1) ∧
    (handleRising i t w).2 =
      [{ sensorIndex := i, percentStep := (handleRising i t w).1.step i,
         rawCount := (handleRising i t w).1.count i }] ∧
    (handleRising i t w).1.count (1 - i) = w.count (1 - i) ∧
    (handleRising i t w).1.lastTick (1 - i) = w.lastTick (1 - i) ∧
    (handleRising i t w).1.step (1 - i) = w.step (1 - i) := by
  rcases hi with rfl | rfl
  · have hd : debounceOk w.lastTickA t DB_US = true := by
      rw [debounceOk_iff]; simpa [MainWindow.lastTick, DB_US] using hgap
    have hc40 : ¬ 40 ≤ w.countA := by simpa [MainWindow.count] using hc
    rw [handleRising_zero]
    simp [hd, hc40, MainWindow.count, MainWindow.lastTick, MainWindow.step]
  · have hd : debounceOk w.lastTickB t DB_US = true := by
      rw [debounceOk_iff]; simpa [MainWindow.lastTick, DB_US] using hgap
    have hc40 : ¬ 40 ≤ w.countB := by simpa [MainWindow.count] using hc
    rw [handleRising_nonzero 1 (by decide)]
    simp [hd, hc40, MainWindow.count, MainWindow.lastTick, MainWindow.step]

/-- A state of channel A with count 7, and an edge 4000 microseconds after
the last accepted one: the edge is accepted and the count becomes 8. -/
theorem handleRising_accepts_witness :
    (handleRising 0 9000
        { countA := 7, countB := 3, lastTickA := 5000, lastTickB := 8000,
          stepA := 0, stepB := 0 }).1.count 0 = 7 + 1 :=
  (handleRising_accepts
      { countA := 7, countB := 3, lastTickA := 5000, lastTickB := 8000, stepA := 0, stepB := 0 }
      0 9000 (Or.inl rfl) (by decide) (by decide)).2.1

/-- C2: when the elapsed time `(t - lastTick) mod 2^32`, computed by unsigned
modular subtraction on the channel that the index selects, is at most 3000,
`handleRising` changes no field of either channel and emits no signal. -/
theorem handleRising_debounced (w : MainWindow) (i : Int) (t : Nat)
    (hgap : ((t : Int) - (w.lastTick i : Int)) % 4294967296 ≤ 3000) :
    handleRising i t w = (w, []) := by
  by_cases hi : i = 0
  · subst hi
    have hd : debounceOk w.lastTickA t DB_US = false := by
      rw [debounceOk_eq_false_iff]; simpa [MainWindow.lastTick, DB_US] using hgap
    rw [handleRising_zero]; simp [hd]
  · have hd : debounceOk w.lastTickB t DB_US = false := by
      rw [debounceOk_eq_false_iff]; simpa [MainWindow.lastTick, DB_US, hi] using hgap
    rw [handleRising_nonzero i hi]; simp [hd]

/-- The wraparound case of C2: with last tick `0xFFFFFFF0` and tick `0x10` the
elapsed time is 32, and the edge is rejected. -/
theorem handleRising_debounced_witness :
    ((16 : Int) - (4294967280 : Int)) % 4294967296 = 32 ∧
    debounceOk 4294967280 16 DB_US = false ∧
    handleRising 0 16
        { countA := 5, countB := 0, lastTickA := 4294967280, lastTickB := 0,
          stepA := 0, stepB := 0 } =
      ({ countA := 5, countB := 0, lastTickA := 4294967280, lastTickB := 0,
         stepA := 0, stepB := 0 }, []) :=
  ⟨by decide, by decide, handleRising_debounced _ 0 16 (by decide)⟩

set_option maxRecDepth 100000 in
/-- The state reached by `fortyEdges`: channel A is saturated. -/
theorem run_fortyEdges :
    run MainWindow.initial fortyEdges =
      { countA := 40, countB := 0, lastTickA := 160000, lastTickB := 0,
        stepA := 100, stepB := 0 } := by
  decide

/-- C3, as stated, fails: after forty accepted edges on channel A the count is
40, and the next correctly spaced edge, at tick 164000, changes the last tick
of the channel from 160000 to 164000. -/
theorem saturated_edge_moves_lastTick :
    (run MainWindow.initial fortyEdges).count 0 ≥ 40 ∧
    (handleRising 0 164000 (run MainWindow.initial fortyEdges)).1.lastTick 0 = 164000 ∧
    (run MainWindow.initial fortyEdges).lastTick 0 = 160000 ∧
    (handleRising 0 164000 (run MainWindow.initial fortyEdges)).1 ≠
      run MainWindow.initial fortyEdges := by
  rw [run_fortyEdges]
  decide

/-- C3, amended: with the count of the selected channel at 40 or more,
`handleRising` leaves every count and every step unchanged and emits no
signal; the last tick of the selected channel is unchanged when the elapsed
time is at most 3000, and becomes `t` when it exceeds 3000; the last tick of
the other channel is unchanged. So the only field that can change is the last
tick of the selected channel: the result is the state `w` itself, or `w` with
that one field set to `t`. -/
theorem handleRising_saturated (w : MainWindow) (i : Int) (t : Nat)
    (hc : w.count i ≥ 40) :
    (handleRising i t w).1.countA = w.countA ∧
    (handleRising i t w).1.countB = w.countB ∧
    (handleRising i t w).1.stepA = w.stepA ∧
    (handleRising i t w).1.stepB = w.stepB ∧
    (handleRising i t w).2 = [] ∧
    (handleRising i t w).1.lastTick i =
      (if ((t : Int) - (w.lastTick i : Int)) % 4294967296 > 3000 then t else w.lastTick i) ∧
    (i = 0 → (handleRising i t w).1.lastTickB = w.lastTickB) ∧
    (i ≠ 0 → (handleRising i t w).1.lastTickA = w.lastTickA) ∧
    handleRising i t w =
      (if ((t : Int) - (w.lastTick i : Int)) % 4294967296 > 3000 then
         (if i = 0 then { w with lastTickA := t } else { w with lastTickB := t })
       else w, []) := by
  by_cases hi : i = 0
  · subst hi
    have hc40 : 40 ≤ w.countA := by simpa [MainWindow.count] using hc
    rw [handleRising_zero]
    cases hd : debounceOk w.lastTickA t DB_US
    · have hgap := (debounceOk_eq_false_iff _ _ _).1 hd
      have hn : ¬ ((t : Int) - (w.lastTickA : Int)) % 4294967296 > 3000 := by
        simp only [DB_US] at hgap; omega
      simp [MainWindow.lastTick, hn]
    · have hgap := (debounceOk_iff _ _ _).1 hd
      have hy : ((t : Int) - (w.lastTickA : Int)) % 4294967296 > 3000 := by
        simpa [DB_US] using hgap
      simp [MainWindow.lastTick, hc40, hy]
  · have hc40 : 40 ≤ w.countB := by simpa [MainWindow.count, hi] using hc
    rw [handleRising_nonzero i hi]
    cases hd : debounceOk w.lastTickB t DB_US
    · have hgap := (debounceOk_eq_false_iff _ _ _).1 hd
      have hn : ¬ ((t : Int) - (w.lastTickB : Int)) % 4294967296 > 3000 := by
        simp only [DB_US] at hgap; omega
      simp [MainWindow.lastTick, hi, hn]
    · have hgap := (debounceOk_iff _ _ _).1 hd
      have hy : ((t : Int) - (w.lastTickB : Int)) % 4294967296 > 3000 := by
        simpa [DB_US] using hgap
      simp [MainWindow.lastTick, hi, hc40, hy]

/-- A saturated channel B and a correctly spaced edge: count and step stay,
nothing is emitted, the last tick of channel B moves to the new tick, and the
last tick of channel A stays: the result is the state with `lastTickB` alone
replaced. -/
theorem handleRising_saturated_witness :
    (handleRising 1 50000
        { countA := 2, countB := 40, lastTickA := 9000, lastTickB := 10000,
          stepA := 0, stepB := 100 }).1.countB = 40 ∧
    (handleRising 1 50000
        { countA := 2, countB := 40, lastTickA := 9000, lastTickB := 10000,
          stepA := 0, stepB := 100 }).2 = [] ∧
    (handleRising 1 50000
        { countA := 2, countB := 40, lastTickA := 9000, lastTickB := 10000,
          stepA := 0, stepB := 100 }).1.lastTickA = 9000 ∧
    handleRising 1 50000
        { countA := 2, countB := 40, lastTickA := 9000, lastTickB := 10000,
          stepA := 0, stepB := 100 } =
      ({ countA := 2, countB := 40, lastTickA := 9000, lastTickB := 50000,
         stepA := 0, stepB := 100 }, []) :=
  have h := handleRising_saturated
    { countA := 2, countB := 40, lastTickA := 9000, lastTickB := 10000,
      stepA := 0, stepB := 100 } 1 50000 (by decide)
  ⟨h.2.1, h.2.2.2.2.1, h.2.2.2.2.2.2.2.1 (by decide), by decide⟩

/-! ## C7: `resetAll` -/

/-- C7: from every state, `resetAll` yields the initial state: both channels
have count 0, last tick 0 and step 0. -/
theorem resetAll_eq_initial (w : MainWindow) :
    resetAll w = MainWindow.initial ∧
    (resetAll w).countA = 0 ∧ (resetAll w).lastTickA = 0 ∧ (resetAll w).stepA = 0 ∧
    (resetAll w).countB = 0 ∧ (resetAll w).lastTickB = 0 ∧ (resetAll w).stepB = 0 := by
  refine ⟨rfl, rfl, rfl, rfl, rfl, rfl, rfl⟩

/-! ## C5, C6: invariants of the reachable states -/

/-- A property that holds initially and is kept by every call holds after
every sequence of calls. -/
theorem run_induction (P : MainWindow → Prop)
    (hstep : ∀ w c, P w → P (Call.apply w c)) :
    ∀ (calls : List Call) (w : MainWindow), P w → P (run w calls) := by
  intro calls
  induction calls with
  | nil => intro w hw; exact hw
  | cons c cs ih => intro w hw; exact ih (Call.apply w c) (hstep w c hw)

/-- One call of `handleRising` never lowers a count, and never raises one
above 40 that was at most 40. -/
theorem handleRising_count_bounds (i : Int) (t : Nat) (w : MainWindow) :
    w.countA ≤ (handleRising i t w).1.countA ∧
    w.countB ≤ (handleRising i t w).1.countB ∧
    (w.countA ≤ 40 → (handleRising i t w).1.countA ≤ 40) ∧
    (w.countB ≤ 40 → (handleRising i t w).1.countB ≤ 40) := by
  by_cases hi : i = 0
  · subst hi
    rw [handleRising_zero]
    split_ifs <;> (simp; try omega)
  · rw [handleRising_nonzero i hi]
    split_ifs <;> (simp; try omega)

/-- One call of `handleRising` keeps each step equal to the bucket of its count. -/
theorem handleRising_step_sync (i : Int) (t : Nat) (w : MainWindow)
    (hA : w.stepA = bucketPercentFromCount w.countA)
    (hB : w.stepB = bucketPercentFromCount w.countB) :
    (handleRising i t w).1.stepA = bucketPercentFromCount (handleRising i t w).1.countA ∧
    (handleRising i t w).1.stepB = bucketPercentFromCount (handleRising i t w).1.countB := by
  by_cases hi : i = 0
  · subst hi
    rw [handleRising_zero]
    split_ifs
    all_goals simp [hA, hB]
  · rw [handleRising_nonzero i hi]
    split_ifs
    all_goals simp [hA, hB]

/-- C5: in every state reached from the initial state by a sequence of
`handleRising` and `resetAll` calls, both counts lie in [0, 40]; and from such
a state, any further sequence of `handleRising` calls (no reset among them)
leaves each count at least as large as it was. -/
theorem count_bounded_and_monotone (calls : List Call) :
    (0 ≤ (run MainWindow.initial calls).countA ∧ (run MainWindow.initial calls).countA ≤ 40) ∧
    (0 ≤ (run MainWindow.initial calls).countB ∧ (run MainWindow.initial calls).countB ≤ 40) ∧
    ∀ edges : List (Int × Nat),
      (run MainWindow.initial calls).countA ≤
        (run (run MainWindow.initial calls)
          (edges.map fun e => Call.rising e.1 e.2)).countA ∧
      (run MainWindow.initial calls).countB ≤
        (run (run MainWindow.initial calls)
          (edges.map fun e => Call.rising e.1 e.2)).countB := by
  have hinv : (0 ≤ (run MainWindow.initial calls).countA ∧
      (run MainWindow.initial calls).countA ≤ 40) ∧
      (0 ≤ (run MainWindow.initial calls).countB ∧
      (run MainWindow.initial calls).countB ≤ 40) := by
    refine run_induction
      (fun w => (0 ≤ w.countA ∧ w.countA ≤ 40) ∧ (0 ≤ w.countB ∧ w.countB ≤ 40))
      ?_ calls MainWindow.initial (by decide)
    intro w c hw
    cases c with
    | reset => simp [Call.apply, resetAll]
    | rising i t =>
      have h := handleRising_count_bounds i t w
      simp only [Call.apply]
      omega
  have hmono : ∀ (edges : List (Int × Nat)) (w : MainWindow),
      w.countA ≤ (run w (edges.map fun e => Call.rising e.1 e.2)).countA ∧
      w.countB ≤ (run w (edges.map fun e => Call.rising e.1 e.2)).countB := by
    intro edges
    induction edges with
    | nil => intro w; exact ⟨le_refl _, le_refl _⟩
    | cons e es ih =>
      intro w
      have h1 := handleRising_count_bounds e.1 e.2 w
      have h2 := ih (handleRising e.1 e.2 w).1
      simp only [List.map_cons, run, List.foldl_cons, Call.apply] at h2 ⊢
      omega
  exact ⟨hinv.1, hinv.2, fun edges => hmono edges _⟩

/-- C6: in every state reached from the initial state by a sequence of
`handleRising` and `resetAll` calls, the stored step of each channel equals
`bucketPercentFromCount` of the stored count of that channel. -/
theorem step_eq_bucket_of_count (calls : List Call) :
    (run MainWindow.initial calls).stepA =
      bucketPercentFromCount (run MainWindow.initial calls).countA ∧
    (run MainWindow.initial calls).stepB =
      bucketPercentFromCount (run MainWindow.initial calls).countB := by
  refine run_induction
    (fun w => w.stepA = bucketPercentFromCount w.countA ∧
      w.stepB = bucketPercentFromCount w.countB)
    ?_ calls MainWindow.initial (by decide)
  intro w c hw
  cases c with
  | reset => simp [Call.apply, resetAll, bucketPercentFromCount]
  | rising i t => exact handleRising_step_sync i t w hw.1 hw.2

/-! ## C9: the end-to-end scenario -/

/-- C9, as stated, fails: after the edges at 0, 4000, 8000 and 12000 on
channel A the count is not 4, because the first edge, at tick 0, has elapsed
time 0 from the initial last tick 0 and is rejected. -/
theorem scenario_count_ne_four :
    handleRising 0 0 MainWindow.initial = (MainWindow.initial, []) ∧
    (run MainWindow.initial scenarioEdges).countA ≠ 4 := by
  decide

/-- C9, amended: after the edges at 0, 4000, 8000 and 12000 on channel A,
from the initial state, channel A has count 3 and step 0 and last tick 12000:
the edge at tick 0 is rejected and the other three are accepted. -/
theorem scenario_count_three :
    (run MainWindow.initial scenarioEdges).countA = 3 ∧
    (run MainWindow.initial scenarioEdges).stepA = 0 ∧
    (run MainWindow.initial scenarioEdges).lastTickA = 12000 ∧
    handleRising 0 0 MainWindow.initial = (MainWindow.initial, []) ∧
    (handleRising 0 4000 MainWindow.initial).1.countA = 1 := by
  decide

/-! ## C10: indices other than 0 and 1 -/

/-- C10, as stated, fails: the call `handleRising(2, 4000)` in the initial
state is not ignored; it is counted on channel B and emits a signal with
index 1. -/
theorem handleRising_two_not_ignored :
    handleRising 2 4000 MainWindow.initial =
      ({ countA := 0, countB := 1, lastTickA := 0, lastTickB := 4000, stepA := 0, stepB := 0 },
       [{ sensorIndex := 1, percentStep := 0, rawCount := 1 }]) ∧
    handleRising 2 4000 MainWindow.initial ≠ (MainWindow.initial, []) := by
  decide

/-- C10, amended: for every index other than 0 and 1, `handleRising` does
exactly what it does for index 1 (the event is treated as an edge on channel
B, and a signal, if any, carries index 1), and no field of channel A changes. -/
theorem handleRising_other_index (w : MainWindow) (i : Int) (t : Nat)
    (hi0 : i ≠ 0) (hi1 : i ≠ 1) :
    handleRising i t w = handleRising 1 t w ∧
    (handleRising i t w).1.countA = w.countA ∧
    (handleRising i t w).1.lastTickA = w.lastTickA ∧
    (handleRising i t w).1.stepA = w.stepA := by
  have _ := hi1
  rw [handleRising_nonzero i hi0, handleRising_nonzero 1 (by decide)]
  refine ⟨rfl, ?_, ?_, ?_⟩ <;> split_ifs <;> rfl

/-- Index 7 in a state where channel B passes the debounce test: the call
acts as index 1 does. -/
theorem handleRising_other_index_witness :
    handleRising 7 20000
        { countA := 4, countB := 8, lastTickA := 19000, lastTickB := 10000,
          stepA := 0, stepB := 20 } =
      handleRising 1 20000
        { countA := 4, countB := 8, lastTickA := 19000, lastTickB := 10000,
          stepA := 0, stepB := 20 } :=
  (handleRising_other_index
    { countA := 4, countB := 8, lastTickA := 19000, lastTickB := 10000, stepA := 0, stepB := 20 }
    7 20000 (by decide) (by decide)).1

/-! ## C8: separation of accepted edges -/

/-- What one call of `handleRising` does to the channel selected by `ch`: if
it incremented the count, the count was below 40, the tick is `separated` from
the previous last tick, and it is the new last tick; if not, the count is
unchanged, and so is the last tick unless the channel was saturated. -/
theorem handleRising_channel (ch i : Int) (t : Nat) (w : MainWindow) :
    ((handleRising i t w).1.count ch = w.count ch + 1 →
      w.count ch < 40 ∧ separated (w.lastTick ch) t ∧ (handleRising i t w).1.lastTick ch = t) ∧
    ((handleRising i t w).1.count ch ≠ w.count ch + 1 →
      (handleRising i t w).1.count ch = w.count ch ∧
      (w.count ch < 40 → (handleRising i t w).1.lastTick ch = w.lastTick ch)) := by
  by_cases hi : i = 0
  · subst hi
    rw [handleRising_zero]
    cases hd : debounceOk w.lastTickA t DB_US
    · simp [MainWindow.count, MainWindow.lastTick]
    · have hsep : separated w.lastTickA t := by
        have h := (debounceOk_iff _ _ _).1 hd
        simpa [separated, DB_US] using h
      by_cases hch : ch = 0
      · by_cases h40 : 40 ≤ w.countA
        · simp [MainWindow.count, MainWindow.lastTick, hch, h40]
        · simp [MainWindow.count, MainWindow.lastTick, hch, h40, hsep]
          omega
      · by_cases h40 : 40 ≤ w.countA
        · simp [MainWindow.count, MainWindow.lastTick, hch, h40]
        · simp [MainWindow.count, MainWindow.lastTick, hch, h40]
  · rw [handleRising_nonzero i hi]
    cases hd : debounceOk w.lastTickB t DB_US
    · simp [MainWindow.count, MainWindow.lastTick]
    · have hsep : separated w.lastTickB t := by
        have h := (debounceOk_iff _ _ _).1 hd
        simpa [separated, DB_US] using h
      by_cases hch : ch = 0
      · by_cases h40 : 40 ≤ w.countB
        · simp [MainWindow.count, MainWindow.lastTick, hch, h40]
        · simp [MainWindow.count, MainWindow.lastTick, hch, h40]
      · by_cases h40 : 40 ≤ w.countB
        · simp [MainWindow.count, MainWindow.lastTick, hch, h40]
        · simp [MainWindow.count, MainWindow.lastTick, hch, h40, hsep]
          omega

/-- Every entry is compatible with a following reset. -/
theorem Mark.separated_reset (m : Mark) : Mark.separated m Mark.reset := by
  cases m <;> exact trivial

/-- The history of a channel is a chain for `Mark.separated`, also behind a
previous entry `m`, provided that, when `m` is an accepted edge, the channel
is saturated or its last tick is the tick of `m`. -/
theorem history_chain (ch : Int) :
    ∀ (calls : List Call) (w : MainWindow) (m : Mark),
      (∀ t1, m = Mark.accepted t1 → 40 ≤ w.count ch ∨ w.lastTick ch = t1) →
      List.Chain Mark.separated m (history ch w calls) := by
  intro calls
  induction calls with
  | nil => intro w m _; exact List.Chain.nil
  | cons c cs ih =>
    intro w m hm
    cases c with
    | reset =>
      exact List.Chain.cons (Mark.separated_reset m)
        (ih (resetAll w) Mark.reset (fun t1 h => by cases h))
    | rising i t =>
      have hstep := handleRising_channel ch i t w
      unfold history
      split_ifs with hacc
      · obtain ⟨hlt, hsep, hlast⟩ := hstep.1 hacc
        refine List.Chain.cons ?_ (ih _ _ ?_)
        · cases m with
          | reset => exact trivial
          | accepted t1 =>
            rcases hm t1 rfl with h40 | hl
            · omega
            · rw [← hl]; exact hsep
        · intro t1 h
          cases h
          exact Or.inr hlast
      · obtain ⟨hcount, hlast⟩ := hstep.2 hacc
        refine ih _ _ ?_
        intro t1 h
        rcases hm t1 h with h40 | hl
        · left; omega
        · by_cases hlt : w.count ch < 40
          · right; rw [hlast hlt]; exact hl
          · left; omega

/-- C8, as stated, fails: an edge on channel A accepted at tick 10000, then
`resetAll`, then an edge at tick 10001 is accepted too, because the reset
zeroed the last tick; the two consecutive accepted edges are 1 microsecond
apart. -/
theorem separation_fails_across_reset :
    history 0 MainWindow.initial [Call.rising 0 10000, Call.reset, Call.rising 0 10001] =
      [Mark.accepted 10000, Mark.reset, Mark.accepted 10001] ∧
    acceptedTicks
      (history 0 MainWindow.initial [Call.rising 0 10000, Call.reset, Call.rising 0 10001]) =
      [10000, 10001] ∧
    ¬ List.Chain' separated
      (acceptedTicks
        (history 0 MainWindow.initial [Call.rising 0 10000, Call.reset, Call.rising 0 10001])) := by
  have hticks : acceptedTicks
      (history 0 MainWindow.initial [Call.rising 0 10000, Call.reset, Call.rising 0 10001]) =
      [10000, 10001] := by decide
  refine ⟨by decide, hticks, ?_⟩
  rw [hticks, List.chain'_pair]
  decide

/-- C8, amended: for every sequence of `handleRising` and `resetAll` calls
from the initial state and for each channel, any two consecutive accepted
edges of the channel with no `resetAll` between them, with ticks `t1` then
`t2`, satisfy `(t2 - t1) mod 2^32 > 3000`: in the history of the channel every
two neighbouring entries are `Mark.separated`. -/
theorem accepted_edges_separated (ch : Int) (calls : List Call) :
    List.Chain' Mark.separated (history ch MainWindow.initial calls) := by
  have h : List.Chain' Mark.separated (Mark.reset :: history ch MainWindow.initial calls) :=
    history_chain ch calls MainWindow.initial Mark.reset (fun t1 h => by cases h)
  exact h.tail

/-! ## C11: the two variants of `classifyHSV` -/

/-- C11: on every pixel with `h >= 40` and `v >= 40` (whatever `s` is, and so
in particular for channels in [0, 255]) the root and the `disc_detector`
variants of `classifyHSV` return the same label; outside that region they can
disagree: at `h = 5, s = 200, v = 200` the root variant returns "red" and the
`disc_detector` variant returns "unknown". -/
theorem classifyHSV_variants_agree (hsv : Vec3b) (hh : 40 ≤ hsv.c0) (hv : 40 ≤ hsv.c2) :
    Root.classifyHSV hsv = DiscDetector.classifyHSV hsv ∧
    Root.classifyHSV { c0 := 5, c1 := 200, c2 := 200 } = "red" ∧
    DiscDetector.classifyHSV { c0 := 5, c1 := 200, c2 := 200 } = "unknown" := by
  refine ⟨?_, by decide, by decide⟩
  have hh40 : ¬ ((hsv.c0 : Int) < 40) := by omega
  have hv40 : ¬ ((hsv.c2 : Int) < 40) := by omega
  simp only [Root.classifyHSV, DiscDetector.classifyHSV, hh40, hv40, false_or]

/-- Three pixels of the region, one per colour, and one with low saturation:
the variants agree on each, with labels "green", "blue", "red" and "unknown". -/
theorem classifyHSV_variants_agree_witness :
    (Root.classifyHSV { c0 := 60, c1 := 200, c2 := 200 } =
      DiscDetector.classifyHSV { c0 := 60, c1 := 200, c2 := 200 }) ∧
    DiscDetector.classifyHSV { c0 := 60, c1 := 200, c2 := 200 } = "green" ∧
    DiscDetector.classifyHSV { c0 := 100, c1 := 200, c2 := 200 } = "blue" ∧
    DiscDetector.classifyHSV { c0 := 175, c1 := 200, c2 := 200 } = "red" ∧
    DiscDetector.classifyHSV { c0 := 60, c1 := 10, c2 := 200 } = "unknown" :=
  ⟨(classifyHSV_variants_agree { c0 := 60, c1 := 200, c2 := 200 } (by decide) (by decide)).1,
    by decide, by decide, by decide, by decide⟩

end PizzaSorting
